import Mathlib

/-!
Shallow embedding of `scripts/pid_optimizer.py` (class `PIDOptimizer`).

Floating-point values are modelled as rationals; the final RMS cost, which
takes a square root, lives in `ℝ`.  Wall-clock polling loops are modelled as
tick-indexed recursion: each iteration of a loop corresponds to one sleep
interval (0.002 s in `collect_during_move`, 0.05 s in `wait_ready`), and the
loop fuel is the number of ticks fitting in the configured timeout.
Telemetry reads that may raise are modelled as `Option ℚ` results fed to
`getp`, which mirrors the `try/except: return 0` in the source.
-/

namespace PIDOpt

/-- The five tuned parameters (`params_dict` keys P, I, D, FF1, FF2). -/
structure ParameterSet where
  P : ℚ
  I : ℚ
  D : ℚ
  FF1 : ℚ
  FF2 : ℚ
deriving DecidableEq

/-- `self.bounds` from `PIDOptimizer.__init__` (lines 26-32):
P (50,200), I (10,150), D (0,0.01), FF1 (0.8,1.1), FF2 (0,0.001). -/
def bounds : List (String × (ℚ × ℚ)) :=
  [("P", (50, 200)), ("I", (10, 150)), ("D", (0, 1/100)),
   ("FF1", (4/5, 11/10)), ("FF2", (0, 1/1000))]

/-- A parameter set lies within `self.bounds`. -/
def inBounds (p : ParameterSet) : Prop :=
  50 ≤ p.P ∧ p.P ≤ 200 ∧ 10 ≤ p.I ∧ p.I ≤ 150 ∧ 0 ≤ p.D ∧ p.D ≤ 1/100 ∧
  4/5 ≤ p.FF1 ∧ p.FF1 ≤ 11/10 ∧ 0 ≤ p.FF2 ∧ p.FF2 ≤ 1/1000

instance (p : ParameterSet) : Decidable (inBounds p) := by
  unfold inBounds
  infer_instance

/-- `PIDOptimizer.getp` (lines 38-42): `try: return hal.get_value(name)
except: return 0`.  The underlying read is an `Option ℚ` (`none` = the
read raised); failure is swallowed and reported as `0`. -/
def getp (r : Option ℚ) : ℚ :=
  r.getD 0

/-- `PIDOptimizer.setp` (lines 44-49): returns a success flag, never raises. -/
def setp (ok : Bool) : Bool :=
  ok

/-- The PID pins of one axis as written through `setp`. -/
structure AxisGains where
  Pgain : ℚ
  Igain : ℚ
  Dgain : ℚ
  FF1 : ℚ
  FF2 : ℚ
deriving DecidableEq

/-- The writable physical pins (both axes). -/
structure PhysState where
  x : AxisGains
  y : AxisGains
deriving DecidableEq

/-- `PIDOptimizer.apply_params` (lines 60-67): writes the given values
verbatim to both axes.  There is no clamping or rejection. -/
def apply_params (p : ParameterSet) : PhysState :=
  { x := ⟨p.P, p.I, p.D, p.FF1, p.FF2⟩
    y := ⟨p.P, p.I, p.D, p.FF1, p.FF2⟩ }

/-- `self.test_distance = 15` (mm). -/
def test_distance : ℚ := 15

/-- `self.test_feed = 10000` (mm/min). -/
def test_feed : ℚ := 10000

/-- Batch-collection deadline (line 101):
`timeout = (self.test_distance * 1.5 / (self.test_feed / 60)) + 0.5`. -/
def collect_timeout : ℚ :=
  test_distance * (3/2) / (test_feed / 60) + 1/2

/-- One iteration of the sampling loop takes one `time.sleep(0.002)` tick. -/
def sample_tick : ℚ := 1/500

/-- Number of sampling-loop iterations fitting in the deadline. -/
def collect_fuel : ℕ :=
  (⌈collect_timeout / sample_tick⌉).toNat

/-- `wait_ready` default timeout (line 73): 10 s. -/
def wait_timeout : ℚ := 10

/-- One iteration of the `wait_ready` loop takes one `time.sleep(0.05)` tick. -/
def wait_tick : ℚ := 1/20

/-- Number of `wait_ready` iterations fitting in its timeout. -/
def wait_fuel : ℕ :=
  (⌈wait_timeout / wait_tick⌉).toNat

/-- One polling tick of telemetry, as read inside `collect_during_move`
(lines 104-113): the two error pins, the two output pins (each read may
raise, hence `Option`), and whether `interp_state == INTERP_IDLE`. -/
structure TelSample where
  err_x : Option ℚ
  err_y : Option ℚ
  out_x : Option ℚ
  out_y : Option ℚ
  idle : Bool
deriving DecidableEq

/-- The sampling loop of `collect_during_move` (lines 103-116), one
recursive step per 2 ms tick, reading the tick-indexed telemetry stream
`tel`.  Errors are scaled to µm, a sample `max |err_x| |err_y|` is kept
only while the activity `vel > 5`, and the loop breaks early when the
interpreter is idle and `vel < 1`. -/
def collectLoop (tel : ℕ → TelSample) : ℕ → ℕ → List ℚ
  | 0, _ => []
  | fuel + 1, t =>
    let s := tel t
    let ex := getp s.err_x * 1000
    let ey := getp s.err_y * 1000
    let vel := |getp s.out_x| + |getp s.out_y|
    let acc := if 5 < vel then [max |ex| |ey|] else []
    if s.idle = true ∧ vel < 1 then acc
    else acc ++ collectLoop tel fuel (t + 1)

/-- `PIDOptimizer.collect_during_move` (lines 93-119): run the sampling
loop for at most `collect_fuel` ticks and return the gated error batch. -/
def collect_during_move (tel : ℕ → TelSample) : List ℚ :=
  collectLoop tel collect_fuel 0

/-- One step of the `wait_ready` polling loop (lines 76-80): `poll t`
tells whether `interp_state == INTERP_IDLE` at tick `t`. -/
def waitReadyLoop (poll : ℕ → Bool) : ℕ → ℕ → Bool
  | 0, _ => false
  | fuel + 1, t => if poll t then true else waitReadyLoop poll fuel (t + 1)

/-- `PIDOptimizer.wait_ready` (lines 73-81): poll every 0.05 s until idle
or the 10 s timeout elapses; `false` on timeout. -/
def wait_ready (poll : ℕ → Bool) : Bool :=
  waitReadyLoop poll wait_fuel 0

/-- `np.sign` on a rational. -/
def sgn (q : ℚ) : ℤ :=
  if q < 0 then -1 else if q = 0 then 0 else 1

/-- `np.diff`: first difference of consecutive samples. -/
def diffs : List ℚ → List ℚ
  | [] => []
  | [_] => []
  | a :: b :: rest => (b - a) :: diffs (b :: rest)

/-- Count of adjacent unequal entries (`np.sum(np.diff(...) != 0)`). -/
def countChanges : List ℤ → ℕ
  | a :: b :: rest => (if a = b then 0 else 1) + countChanges (b :: rest)
  | _ => 0

/-- `sign_changes = np.sum(np.diff(np.sign(diff)) != 0)` (line 144). -/
def sign_changes (l : List ℚ) : ℕ :=
  countChanges ((diffs l).map sgn)

/-- Mean of squares of the batch (`np.mean(errors**2)`). -/
def rmsSq (l : List ℚ) : ℚ :=
  (l.map (fun x => x ^ 2)).sum / l.length

/-- The oscillation-penalty test of `evaluate` (lines 142-145): batch
longer than 20 samples and `sign_changes > len(diff) * 0.4`. -/
def oscPenalty (l : List ℚ) : Bool :=
  decide (20 < l.length) &&
    decide ((((diffs l).length : ℚ) * (2/5)) < (sign_changes l : ℚ))

/-- The cost reduction of `evaluate` (lines 135-148): sentinel 999 on an
empty batch, otherwise the RMS, doubled when the oscillation penalty
fires. -/
noncomputable def cost (l : List ℚ) : ℝ :=
  if l = [] then 999
  else (if oscPenalty l then 2 else 1) * Real.sqrt ((rmsSq l : ℚ) : ℝ)

/-- The mocked telemetry/motion collaborator for one `evaluate` call: the
telemetry streams observed during the two motion legs (out by
`test_distance`, then back to the origin). -/
structure EvalEnv where
  leg1 : ℕ → TelSample
  leg2 : ℕ → TelSample

/-- `PIDOptimizer.evaluate` (lines 121-148): apply the parameter set
verbatim, collect the two legs' batches against the mocked collaborator,
concatenate, and reduce to the scalar cost.  Returns the cost together
with the physical pin state it wrote. -/
noncomputable def evaluate (env : EvalEnv) (p : ParameterSet) : ℝ × PhysState :=
  let phys := apply_params p
  let batch := collect_during_move env.leg1 ++ collect_during_move env.leg2
  (cost batch, phys)

/-- The Result Tracker state: `self.best_rms` / `self.best_params`
(`__init__` lines 34-36; `best_params` starts as the empty dict, modelled
as `none`). -/
structure BestState where
  best_rms : ℚ
  best_params : Option ParameterSet
deriving DecidableEq

/-- Initial tracker state: `best_rms = 999`, `best_params = {}`. -/
def init_best : BestState :=
  ⟨999, none⟩

/-- The tracker update inside `objective` (lines 159-161): replace only on
a strictly lower cost. -/
def record (s : BestState) (p : ParameterSet) (c : ℚ) : BestState :=
  if c < s.best_rms then ⟨c, some p⟩ else s

/-- Fold a sequence of recorded (params, cost) pairs through the tracker. -/
def runRecords (s : BestState) : List (ParameterSet × ℚ) → BestState
  | [] => s
  | pc :: rest => runRecords (record s pc.1 pc.2) rest

/-- The `KeyboardInterrupt` handler in `__main__` (lines 308-309): it
prints a fixed message; it does not consult the tracker state. -/
def interrupt_message (_ : BestState) : String :=
  "\n\nInterrupted by user"

/-- Test vector from spec scenario 2: 21 alternating samples of
magnitude 5. -/
def alt21 : List ℚ :=
  [5, -5, 5, -5, 5, -5, 5, -5, 5, -5, 5, -5, 5, -5, 5, -5, 5, -5, 5, -5, 5]

/-- Test vector in the shape of spec scenario 3: 21 samples rising
1..11 then falling back to 1, whose first difference changes sign once. -/
def updown21 : List ℚ :=
  [1, 2, 3, 4, 5, 6, 7, 8, 9, 10, 11, 10, 9, 8, 7, 6, 5, 4, 3, 2, 1]

/-- An in-bounds parameter set. -/
def goodParams : ParameterSet :=
  ⟨100, 50, 0, 1, 0⟩

/-- An out-of-bounds parameter set (P = 1000, bound is (50, 200)).  An
unbounded Nelder-Mead run can propose such a point: `optimize_nelder_mead`
(lines 169-186) builds `bounds_list` but never passes it to `minimize`. -/
def badParams : ParameterSet :=
  ⟨1000, 50, 0, 1, 0⟩

/-- Telemetry tick of a machine at rest: every read raises, interpreter
idle. -/
def deadSample : TelSample :=
  ⟨none, none, none, none, true⟩

/-- Collaborator whose two legs observe only `deadSample` ticks. -/
def deadEnv : EvalEnv :=
  ⟨fun _ => deadSample, fun _ => deadSample⟩

/-- Telemetry tick where every read raises and the interpreter never
reports idle. -/
def failSample : TelSample :=
  ⟨none, none, none, none, false⟩

/-- Collaborator for which every telemetry read fails on both legs. -/
def failEnv : EvalEnv :=
  ⟨fun _ => failSample, fun _ => failSample⟩

/- ------------------------------------------------------------------ -/
/- Helper lemmas                                                       -/
/- ------------------------------------------------------------------ -/

theorem cost_empty : cost [] = 999 := by
  simp [cost]

theorem cost_nonempty (l : List ℚ) (h : l ≠ []) :
    cost l = (if oscPenalty l then 2 else 1) * Real.sqrt ((rmsSq l : ℚ) : ℝ) := by
  simp [cost, h]

theorem oscPenalty_iff (l : List ℚ) :
    oscPenalty l = true ↔
      (20 < l.length ∧ ((diffs l).length : ℚ) * (2/5) < (sign_changes l : ℚ)) := by
  simp [oscPenalty]

theorem diffs_length : ∀ l : List ℚ, (diffs l).length = l.length - 1
  | [] => rfl
  | [_] => rfl
  | a :: b :: rest => by
    have ih := diffs_length (b :: rest)
    simp [diffs] at ih ⊢
    omega

theorem collect_fuel_eq : collect_fuel = 318 := by
  have h : collect_timeout / sample_tick = (635:ℚ)/2 := by
    norm_num [collect_timeout, sample_tick, test_distance, test_feed]
  have h2 : ⌈(635:ℚ)/2⌉ = 318 := by
    rw [Int.ceil_eq_iff]
    norm_num
  rw [collect_fuel, h, h2]
  rfl

theorem record_best_rms (s : BestState) (p : ParameterSet) (c : ℚ) :
    (record s p c).best_rms = min s.best_rms c := by
  by_cases h : c < s.best_rms
  · simp [record, h, min_eq_right h.le]
  · simp [record, h, min_eq_left (le_of_not_lt h)]

theorem runRecords_foldl : ∀ (l : List (ParameterSet × ℚ)) (s : BestState),
    (runRecords s l).best_rms = (l.map Prod.snd).foldl min s.best_rms
  | [], _ => rfl
  | pc :: rest, s => by
    simp only [runRecords, List.map, List.foldl]
    rw [runRecords_foldl rest, record_best_rms]

theorem record_params_isSome (s : BestState) (p : ParameterSet) (c : ℚ)
    (h : s.best_params.isSome = true) : (record s p c).best_params.isSome = true := by
  by_cases hc : c < s.best_rms
  · simp [record, hc]
  · simpa [record, hc] using h

theorem runRecords_params_isSome : ∀ (l : List (ParameterSet × ℚ)) (s : BestState),
    s.best_params.isSome = true → (runRecords s l).best_params.isSome = true
  | [], _, h => h
  | pc :: rest, s, h =>
    runRecords_params_isSome rest _ (record_params_isSome s pc.1 pc.2 h)

theorem runRecords_improved_isSome : ∀ (l : List (ParameterSet × ℚ)) (s : BestState),
    (runRecords s l).best_rms < s.best_rms → (runRecords s l).best_params.isSome = true
  | [], s, h => absurd h (lt_irrefl _)
  | pc :: rest, s, h => by
    by_cases hc : pc.2 < s.best_rms
    · have hsome : (record s pc.1 pc.2).best_params.isSome = true := by
        simp [record, hc]
      exact runRecords_params_isSome rest _ hsome
    · have heq : record s pc.1 pc.2 = s := by simp [record, hc]
      simp only [runRecords, heq] at h ⊢
      exact runRecords_improved_isSome rest s h

theorem foldl_min_le_init (cs : List ℚ) : ∀ a : ℚ, cs.foldl min a ≤ a := by
  induction cs with
  | nil => intro a; simp
  | cons d rest ih =>
    intro a
    calc rest.foldl min (min a d) ≤ min a d := ih (min a d)
    _ ≤ a := min_le_left _ _

theorem foldl_min_le_of_mem {c : ℚ} {cs : List ℚ} (h : c ∈ cs) :
    ∀ a : ℚ, cs.foldl min a ≤ c := by
  induction cs with
  | nil => simp at h
  | cons d rest ih =>
    intro a
    rcases List.mem_cons.mp h with rfl | hmem
    · calc rest.foldl min (min a c) ≤ min a c := foldl_min_le_init rest _
      _ ≤ c := min_le_right _ _
    · exact ih hmem (min a d)

theorem sum_sq_map_two (l : List ℚ) :
    ((l.map (fun x => 2 * x)).map (fun x => x ^ 2)).sum
      = 4 * ((l.map (fun x => x ^ 2)).sum) := by
  induction l with
  | nil => simp
  | cons a t ih =>
    simp only [List.map, List.sum_cons, ih]
    ring

theorem rmsSq_map_two (l : List ℚ) : rmsSq (l.map (fun x => 2 * x)) = 4 * rmsSq l := by
  simp only [rmsSq, sum_sq_map_two, List.length_map]
  rw [mul_div_assoc]

theorem diffs_map_two : ∀ l : List ℚ,
    diffs (l.map (fun x => 2 * x)) = (diffs l).map (fun x => 2 * x)
  | [] => rfl
  | [_] => rfl
  | a :: b :: rest => by
    have ih := diffs_map_two (b :: rest)
    simp only [List.map] at ih ⊢
    simp only [diffs, ih]
    rw [show (2 * b - 2 * a : ℚ) = 2 * (b - a) by ring]

theorem sgn_two (x : ℚ) : sgn (2 * x) = sgn x := by
  rcases lt_trichotomy x 0 with h | h | h
  · have h2 : 2 * x < 0 := by linarith
    simp [sgn, h, h2]
  · simp [sgn, h]
  · have h2 : ¬ (2 * x < 0) := by linarith
    have h3 : ¬ (2 * x = 0) := by
      intro hc
      have hx : x = 0 := by linarith
      exact absurd hx h.ne.symm
    simp [sgn, h2, h3, h.ne.symm, not_lt.mpr h.le]

theorem sign_changes_map_two (l : List ℚ) :
    sign_changes (l.map (fun x => 2 * x)) = sign_changes l := by
  simp only [sign_changes, diffs_map_two, List.map_map]
  congr 1
  apply List.map_congr_left
  intro x _
  exact sgn_two x

theorem oscPenalty_map_two (l : List ℚ) :
    oscPenalty (l.map (fun x => 2 * x)) = oscPenalty l := by
  simp only [oscPenalty, List.length_map, sign_changes_map_two, diffs_map_two]

theorem rmsSq_nonneg (l : List ℚ) : 0 ≤ rmsSq l := by
  apply div_nonneg
  · apply List.sum_nonneg
    intro x hx
    rcases List.mem_map.mp hx with ⟨y, _, rfl⟩
    positivity
  · positivity

theorem cost_nonneg (l : List ℚ) : 0 ≤ cost l := by
  by_cases h : l = []
  · simp [cost, h]
  · rw [cost, if_neg h]
    apply mul_nonneg
    · split <;> norm_num
    · exact Real.sqrt_nonneg _

theorem sqrt_rmsSq_map_two (l : List ℚ) :
    Real.sqrt ((rmsSq (l.map (fun x => 2 * x)) : ℚ) : ℝ)
      = 2 * Real.sqrt ((rmsSq l : ℚ) : ℝ) := by
  rw [rmsSq_map_two]
  push_cast
  rw [show ((4:ℝ) * (rmsSq l : ℝ)) = (2:ℝ)^2 * (rmsSq l : ℝ) by ring]
  rw [Real.sqrt_mul (by positivity) _, Real.sqrt_sq (by norm_num : (0:ℝ) ≤ 2)]

theorem collectLoop_length_le (tel : ℕ → TelSample) :
    ∀ (fuel t : ℕ), (collectLoop tel fuel t).length ≤ fuel
  | 0, _ => by simp [collectLoop]
  | fuel + 1, t => by
    have ih := collectLoop_length_le tel fuel (t + 1)
    simp only [collectLoop]
    split
    · split <;> simp
    · split <;> simp_all <;> omega

theorem waitReadyLoop_false (poll : ℕ → Bool) (h : ∀ u, poll u = false) :
    ∀ (fuel t : ℕ), waitReadyLoop poll fuel t = false
  | 0, _ => rfl
  | fuel + 1, t => by
    simp only [waitReadyLoop, h t]
    exact waitReadyLoop_false poll h fuel (t + 1)

theorem collectLoop_failed (tel : ℕ → TelSample)
    (h : ∀ u, (tel u).out_x = none ∧ (tel u).out_y = none) :
    ∀ (fuel t : ℕ), collectLoop tel fuel t = []
  | 0, _ => rfl
  | fuel + 1, t => by
    have ih := collectLoop_failed tel h fuel (t + 1)
    simp only [collectLoop, (h t).1, (h t).2]
    simp [getp, ih]

/- ------------------------------------------------------------------ -/
/- Claim theorems                                                      -/
/- ------------------------------------------------------------------ -/

/-- Claim C1: the claim says `evaluate` rejects or clamps each out-of-bounds
parameter value before applying it to the physical system.  The code does
the opposite: `evaluate` hands `params_dict` straight to `apply_params`,
which writes the raw values to both axes, and `optimize_nelder_mead`
builds `bounds_list` without ever passing it to `minimize`.  At the
out-of-bounds proposal `badParams` (P = 1000, bound (50, 200)) the pin
`pid.x.Pgain` receives 1000 unchanged. -/
theorem evaluate_applies_out_of_bounds_params :
    ¬ inBounds badParams ∧
    (evaluate deadEnv badParams).2 = apply_params badParams ∧
    (apply_params badParams).x.Pgain = 1000 ∧
    (apply_params badParams).y.Pgain = 1000 := by
  refine ⟨?_, rfl, rfl, rfl⟩
  intro h
  have h2 := h.2.1
  norm_num [badParams] at h2

/-- Claim C2 (counterexample): the non-empty batch `[999]` also produces
cost 999, so the sentinel value is not returned only on empty batches. -/
theorem cost_999_on_nonempty_batch :
    cost [(999:ℚ)] = 999 ∧ ([(999:ℚ)] : List ℚ) ≠ [] := by
  constructor
  · rw [cost_nonempty _ (by simp)]
    have hosc : oscPenalty [(999:ℚ)] = false := by norm_num [oscPenalty]
    have hr : rmsSq [(999:ℚ)] = 998001 := by norm_num [rmsSq]
    rw [hosc, hr]
    have h2 : ((998001:ℚ):ℝ) = 999 ^ 2 := by norm_num
    rw [h2, Real.sqrt_sq (by norm_num : (0:ℝ) ≤ 999)]
    norm_num
  · simp

/-- Claim C2 (amended): an empty concatenated batch yields exactly the
sentinel cost 999, and this sentinel is never zero — "no data" is never
reported as "zero error". -/
theorem empty_batch_gives_sentinel :
    cost ([] : List ℚ) = 999 ∧ cost ([] : List ℚ) ≠ 0 := by
  constructor
  · exact cost_empty
  · rw [cost_empty]
    norm_num

/-- Claim C3: for a non-empty batch the cost is the RMS, doubled exactly
once iff the batch has more than 20 samples and the sign changes in the
first difference exceed 40% of the difference's length; the 21-sample
alternating batch of magnitude 5 costs 10, and any 21-sample batch with
at most two sign changes costs its raw RMS. -/
theorem evaluate_cost_formula :
    (∀ l : List ℚ, l ≠ [] →
      cost l = (if 20 < l.length ∧ ((diffs l).length : ℚ) * (2/5) < (sign_changes l : ℚ)
                then 2 else 1) * Real.sqrt ((rmsSq l : ℚ) : ℝ)) ∧
    cost alt21 = 10 ∧
    (∀ l : List ℚ, l.length = 21 → sign_changes l ≤ 2 →
      cost l = Real.sqrt ((rmsSq l : ℚ) : ℝ)) := by
  refine ⟨?_, ?_, ?_⟩
  · intro l h
    rw [cost_nonempty _ h]
    simp only [oscPenalty_iff]
  · rw [cost_nonempty _ (by simp [alt21])]
    have hosc : oscPenalty alt21 = true := by
      norm_num [alt21, oscPenalty, diffs, sign_changes, countChanges, sgn]
    have hr : rmsSq alt21 = 25 := by norm_num [alt21, rmsSq]
    rw [hosc, hr]
    have h2 : ((25:ℚ):ℝ) = 5 ^ 2 := by norm_num
    rw [h2, Real.sqrt_sq (by norm_num : (0:ℝ) ≤ 5)]
    norm_num
  · intro l hlen hsc
    have hne : l ≠ [] := by
      intro hc
      rw [hc] at hlen
      simp at hlen
    rw [cost_nonempty _ hne]
    have hosc : oscPenalty l = false := by
      have hd : (diffs l).length = 20 := by rw [diffs_length, hlen]
      have h3 : (sign_changes l : ℚ) ≤ 2 := by exact_mod_cast hsc
      simp only [oscPenalty, hd, hlen]
      simp
      linarith
    rw [hosc]
    norm_num

/-- Claim C3 witness: the cost formula and the no-penalty case evaluated
at the concrete spec scenarios. -/
theorem evaluate_cost_formula_witness :
    (alt21 ≠ [] ∧
      cost alt21 = (if 20 < alt21.length ∧
            ((diffs alt21).length : ℚ) * (2/5) < (sign_changes alt21 : ℚ)
          then 2 else 1) * Real.sqrt ((rmsSq alt21 : ℚ) : ℝ)) ∧
    (updown21.length = 21 ∧ sign_changes updown21 ≤ 2 ∧
      cost updown21 = Real.sqrt ((rmsSq updown21 : ℚ) : ℝ)) :=
  ⟨⟨by simp [alt21], evaluate_cost_formula.1 alt21 (by simp [alt21])⟩,
   by norm_num [updown21],
   by norm_num [updown21, sign_changes, diffs, countChanges, sgn],
   evaluate_cost_formula.2.2 updown21 (by norm_num [updown21])
     (by norm_num [updown21, sign_changes, diffs, countChanges, sgn])⟩

/-- Claim C4 (counterexample): recording the single cost 1000 leaves
`best_rms` at its initial sentinel 999, which differs from the minimum
(1000) of the recorded costs — the claimed equality fails when every
recorded cost exceeds the initial 999. -/
theorem best_stuck_at_sentinel :
    (runRecords init_best [(goodParams, 1000)]).best_rms = 999 ∧ (999 : ℚ) ≠ 1000 := by
  constructor
  · norm_num [runRecords, record, init_best]
  · norm_num

/-- Claim C4 (amended): the tracked best never regresses and is replaced
only on a strictly lower cost, and after any sequence of records
`best_rms` equals the minimum of 999 (its initial sentinel) and all
recorded costs; in particular the recorded costs [50, 30, 45, 10, 20]
leave `best_rms = 10`. -/
theorem best_tracker_foldl_min :
    (∀ (s : BestState) (p : ParameterSet) (c : ℚ),
      (record s p c).best_rms ≤ s.best_rms) ∧
    (∀ l : List (ParameterSet × ℚ),
      (runRecords init_best l).best_rms = (l.map Prod.snd).foldl min 999) ∧
    (runRecords init_best [(goodParams, 50), (goodParams, 30), (goodParams, 45),
      (goodParams, 10), (goodParams, 20)]).best_rms = 10 := by
  refine ⟨?_, ?_, ?_⟩
  · intro s p c
    rw [record_best_rms]
    exact min_le_left _ _
  · intro l
    simpa [init_best] using runRecords_foldl l init_best
  · norm_num [runRecords, record, init_best]

/-- Claim C5 (counterexample): a failed underlying read is reported by
`getp` as the numeric value 0 — not as `None` — and is therefore
indistinguishable from a successful read of 0. -/
theorem getp_failure_returns_zero :
    getp none = 0 ∧ getp none = getp (some 0) :=
  ⟨rfl, rfl⟩

/-- Claim C5 (amended): `getp` never raises to its caller (it is total);
a successful read is returned unchanged and a failed read is returned as
the neutral value 0 rather than `None`. -/
theorem getp_never_raises_zero_default :
    (∀ q : ℚ, getp (some q) = q) ∧ getp none = 0 :=
  ⟨fun _ => rfl, rfl⟩

/-- Claim C6: after three evaluations with costs 50, 10, 20 the tracker
does hold a valid non-sentinel best (best_rms = 10 with its parameters),
but the `KeyboardInterrupt` handler's output is the same fixed string as
for a run with no progress at all — it surfaces no summary of the best
parameters found, contradicting the claim that the interrupt is surfaced
as a clean summary of best-found-so-far. -/
theorem interrupt_keeps_best_but_message_ignores_it :
    (runRecords init_best [(goodParams, 50), (goodParams, 10),
      (goodParams, 20)]).best_rms = 10 ∧
    (runRecords init_best [(goodParams, 50), (goodParams, 10),
      (goodParams, 20)]).best_params = some goodParams ∧
    interrupt_message (runRecords init_best [(goodParams, 50), (goodParams, 10),
      (goodParams, 20)]) = interrupt_message init_best := by
  refine ⟨?_, ?_, rfl⟩
  · norm_num [runRecords, record, init_best]
  · norm_num [runRecords, record, init_best]

/-- Claim C7: doubling every error-sample magnitude doubles the
non-penalized cost (the square-rooted mean square), leaves the penalty
decision unchanged (positive scaling preserves the sign pattern of the
first differences), hence doubles the total cost and never decreases it. -/
theorem cost_doubles_with_magnitudes (l : List ℚ) (h : l ≠ []) :
    Real.sqrt ((rmsSq (l.map (fun x => 2 * x)) : ℚ) : ℝ)
        = 2 * Real.sqrt ((rmsSq l : ℚ) : ℝ) ∧
    oscPenalty (l.map (fun x => 2 * x)) = oscPenalty l ∧
    cost (l.map (fun x => 2 * x)) = 2 * cost l ∧
    cost l ≤ cost (l.map (fun x => 2 * x)) := by
  have hmap : l.map (fun x => 2 * x) ≠ [] := by
    simpa using h
  have hc : cost (l.map (fun x => 2 * x)) = 2 * cost l := by
    rw [cost_nonempty _ hmap, cost_nonempty _ h, oscPenalty_map_two, sqrt_rmsSq_map_two]
    ring
  refine ⟨sqrt_rmsSq_map_two l, oscPenalty_map_two l, hc, ?_⟩
  rw [hc]
  linarith [cost_nonneg l]

/-- Claim C7 witness: the doubling law applied to the batch [1, 2, 3]. -/
theorem cost_doubles_with_magnitudes_witness :
    (([1, 2, 3] : List ℚ) ≠ []) ∧
    cost (([1, 2, 3] : List ℚ).map (fun x => 2 * x)) = 2 * cost [1, 2, 3] :=
  ⟨by simp, (cost_doubles_with_magnitudes [1, 2, 3] (by simp)).2.2.1⟩

/-- Claim C8: the sampling loop's deadline is exactly
`test_distance * 1.5 / (test_feed / 60) + 0.5` seconds, its tick count
stays within that deadline, any run of the sampling loop collects at most
`fuel` samples (one per tick), and `wait_ready` returns `false` when the
idle state is never observed before its timeout elapses — no evaluation
step blocks unboundedly. -/
theorem poll_loops_have_deadlines :
    collect_timeout = test_distance * (3/2) / (test_feed / 60) + 1/2 ∧
    (collect_fuel : ℚ) * sample_tick ≤ collect_timeout + sample_tick ∧
    (∀ (tel : ℕ → TelSample) (fuel t : ℕ), (collectLoop tel fuel t).length ≤ fuel) ∧
    (∀ poll : ℕ → Bool, (∀ u, poll u = false) → wait_ready poll = false) := by
  refine ⟨rfl, ?_, collectLoop_length_le, ?_⟩
  · rw [collect_fuel_eq]
    norm_num [sample_tick, collect_timeout, test_distance, test_feed]
  · intro poll h
    exact waitReadyLoop_false poll h wait_fuel 0

/-- Claim C8 witness: a never-idle poll stream makes `wait_ready` time
out and return `false`. -/
theorem poll_loops_have_deadlines_witness :
    (∀ u : ℕ, (fun _ : ℕ => false) u = false) ∧
    wait_ready (fun _ : ℕ => false) = false :=
  ⟨fun _ => rfl, poll_loops_have_deadlines.2.2.2 (fun _ => false) (fun _ => rfl)⟩

/-- Claim C9: `evaluate` is deterministic in its collaborator — for any
in-bounds parameter set, two evaluations against collaborators producing
the same telemetry sample sequences return the same cost. -/
theorem evaluate_deterministic (p : ParameterSet) (env1 env2 : EvalEnv)
    (hp : inBounds p)
    (h1 : ∀ t, env1.leg1 t = env2.leg1 t) (h2 : ∀ t, env1.leg2 t = env2.leg2 t) :
    (evaluate env1 p).1 = (evaluate env2 p).1 := by
  have e1 : env1.leg1 = env2.leg1 := funext h1
  have e2 : env1.leg2 = env2.leg2 := funext h2
  simp [evaluate, collect_during_move, e1, e2]

/-- Claim C9 witness: determinism instantiated at an in-bounds parameter
set against the at-rest collaborator. -/
theorem evaluate_deterministic_witness :
    inBounds goodParams ∧
    (evaluate deadEnv goodParams).1 = (evaluate deadEnv goodParams).1 :=
  ⟨by norm_num [inBounds, goodParams],
   evaluate_deterministic goodParams deadEnv deadEnv
     (by norm_num [inBounds, goodParams]) (fun _ => rfl) (fun _ => rfl)⟩

/-- Claim C10: when every telemetry read fails throughout an evaluation,
each failed read is treated as 0, so the activity gate `vel > 5` never
opens, both legs contribute empty batches, and `evaluate` returns the
sentinel 999. -/
theorem failed_telemetry_gives_sentinel (env : EvalEnv) (p : ParameterSet)
    (h1 : ∀ u, (env.leg1 u).out_x = none ∧ (env.leg1 u).out_y = none)
    (h2 : ∀ u, (env.leg2 u).out_x = none ∧ (env.leg2 u).out_y = none) :
    getp none = 0 ∧
    collect_during_move env.leg1 = [] ∧
    collect_during_move env.leg2 = [] ∧
    (evaluate env p).1 = 999 := by
  have c1 : collect_during_move env.leg1 = [] :=
    collectLoop_failed env.leg1 h1 collect_fuel 0
  have c2 : collect_during_move env.leg2 = [] :=
    collectLoop_failed env.leg2 h2 collect_fuel 0
  refine ⟨rfl, c1, c2, ?_⟩
  simp [evaluate, c1, c2, cost]

/-- Claim C10 witness: the all-reads-fail collaborator drives `evaluate`
to the sentinel cost. -/
theorem failed_telemetry_gives_sentinel_witness :
    (∀ u : ℕ, (failEnv.leg1 u).out_x = none ∧ (failEnv.leg1 u).out_y = none) ∧
    (evaluate failEnv goodParams).1 = 999 :=
  ⟨fun _ => ⟨rfl, rfl⟩,
   (failed_telemetry_gives_sentinel failEnv goodParams
     (fun _ => ⟨rfl, rfl⟩) (fun _ => ⟨rfl, rfl⟩)).2.2.2⟩

end PIDOpt
